import Mathlib

/-!
Verification of the RectangleWin placement engine (main.go).

The Go source is shallowly embedded: rectangles become a structure of
integer coordinates, Go's truncating integer division and remainder become
`Int.tdiv` / `Int.tmod`, the Win32 platform calls become an oracle record,
and the two mutable globals (`lastResized` and the `edgeFuncTurn` slice)
become explicit state threaded through the functions that the hotkey
callbacks run.
-/

namespace RectangleWin

/-- Go's `/` on integers truncates toward zero. -/
def goDiv (a b : Int) : Int := Int.tdiv a b

/-- Go's `%` on integers truncates toward zero. -/
def goMod (a b : Int) : Int := Int.tmod a b

/-- w32.RECT: `{Left, Top, Right, Bottom}` screen coordinates. -/
structure RECT where
  Left : Int
  Top : Int
  Right : Int
  Bottom : Int
deriving DecidableEq, Repr

def RECT.Width (r : RECT) : Int := r.Right - r.Left

def RECT.Height (r : RECT) : Int := r.Bottom - r.Top

/-- Go source: `func modNeg(v, m int) int \x7b return (v%m + m) % m \x7d`. -/
def modNeg (v m : Int) : Int := goMod (goMod v m + m) m

/-- Reduction of an integer to the two's-complement int32 it denotes:
the representative of `a` modulo `2^32` in `[-2^31, 2^31)`. -/
def wrap32 (a : Int) : Int := (a + 2147483648) % 4294967296 - 2147483648

/-- Go's `*` on int32: the mathematical product wrapped to int32. -/
def int32mul (a b : Int) : Int := wrap32 (a * b)

/-- Go's `/` on int32: truncated quotient, wrapped to int32 (the wrap is
only observable at `MinInt32 / -1`, but it is part of the operation). -/
def int32div (a b : Int) : Int := wrap32 (Int.tdiv a b)

/-- Go source: `func resizeForDpi(src w32.RECT, from, to int32) w32.RECT`:
every coordinate is multiplied by `to` and then divided by `from`, in
wrapping int32 arithmetic (`w32.RECT` fields and both DPI parameters are
int32). -/
def resizeForDpi (src : RECT) (fromDpi toDpi : Int) : RECT :=
  { Left := int32div (int32mul src.Left toDpi) fromDpi
    Right := int32div (int32mul src.Right toDpi) fromDpi
    Top := int32div (int32mul src.Top toDpi) fromDpi
    Bottom := int32div (int32mul src.Bottom toDpi) fromDpi }

/-- Go source: `func sameRect(a, b *w32.RECT) bool`; nil pointers are `none`. -/
def sameRect (a b : Option RECT) : Bool :=
  match a, b with
  | some ra, some rb => decide (ra = rb)
  | _, _ => false

/-- Go source: `func center(disp, cur w32.RECT) w32.RECT`. -/
def center (disp cur : RECT) : RECT :=
  let w := goDiv (disp.Width - cur.Width) 2
  let h := goDiv (disp.Height - cur.Height) 2
  { Left := disp.Left + w
    Right := disp.Left + w + cur.Width
    Top := disp.Top + h
    Bottom := disp.Top + h + cur.Height }

/-- The invisible-border adjustment applied to every computed target in
`resize` and `moveToNextMonitor`: the `lExtra`/`rExtra`/`tExtra`/`bExtra`
offsets between the DPI-normalized frame and the outer rectangle are
subtracted from Left/Top and added to Right/Bottom of `newPos`. -/
def borderCorrect (rect resizedFrame newPos : RECT) : RECT :=
  { Left := newPos.Left - (resizedFrame.Left - rect.Left)
    Top := newPos.Top - (resizedFrame.Top - rect.Top)
    Right := newPos.Right + (-resizedFrame.Right + rect.Right)
    Bottom := newPos.Bottom + (-resizedFrame.Bottom + rect.Bottom) }

theorem wrap32_id (a : Int) (h1 : -2147483648 ≤ a) (h2 : a < 2147483648) :
    wrap32 a = a := by
  unfold wrap32
  rw [Int.emod_eq_of_lt (by omega) (by omega)]
  omega

/-- One coordinate of the DPI round trip 100 → 150 → 100 moves by at most
one pixel whenever the multiplications stay within int32 (which
`|x| ≤ 14316557` guarantees: `|x·150| ≤ 2147483550` and the intermediate
quotient times 100 is at most `2147483500`). -/
theorem int32_dpi_roundtrip (x : Int) (hx1 : -14316557 ≤ x)
    (hx2 : x ≤ 14316557) :
    x - 1 ≤ int32div (int32mul (int32div (int32mul x 150) 100) 100) 150 ∧
    int32div (int32mul (int32div (int32mul x 150) 100) 100) 150 ≤ x + 1 := by
  unfold int32div int32mul
  rcases le_or_lt 0 x with hx | hx
  · have h1 : (0 : Int) ≤ x * 150 := by positivity
    have hw1 : wrap32 (x * 150) = x * 150 := wrap32_id _ (by omega) (by omega)
    rw [hw1, Int.tdiv_eq_ediv h1 (by norm_num)]
    have h2 : (0 : Int) ≤ x * 150 / 100 := Int.ediv_nonneg h1 (by norm_num)
    have hub2 : x * 150 / 100 ≤ 21474835 := by omega
    have hw2 : wrap32 (x * 150 / 100) = x * 150 / 100 :=
      wrap32_id _ (by omega) (by omega)
    rw [hw2]
    have h3 : (0 : Int) ≤ x * 150 / 100 * 100 := by positivity
    have hw3 : wrap32 (x * 150 / 100 * 100) = x * 150 / 100 * 100 :=
      wrap32_id _ (by omega) (by omega)
    rw [hw3, Int.tdiv_eq_ediv h3 (by norm_num)]
    have h4 : (0 : Int) ≤ x * 150 / 100 * 100 / 150 := Int.ediv_nonneg h3 (by norm_num)
    have hub4 : x * 150 / 100 * 100 / 150 ≤ 14316557 := by omega
    have hw4 : wrap32 (x * 150 / 100 * 100 / 150) = x * 150 / 100 * 100 / 150 :=
      wrap32_id _ (by omega) (by omega)
    rw [hw4]
    omega
  · have hxn : (0 : Int) ≤ -x := by omega
    have e1 : x * 150 = -(-x * 150) := by ring
    have h1 : (0 : Int) ≤ -x * 150 := by positivity
    have hw1 : wrap32 (x * 150) = x * 150 := wrap32_id _ (by omega) (by omega)
    rw [hw1, e1, Int.neg_tdiv, Int.tdiv_eq_ediv h1 (by norm_num)]
    have h2 : (0 : Int) ≤ -x * 150 / 100 := Int.ediv_nonneg h1 (by norm_num)
    have hub2 : -x * 150 / 100 ≤ 21474835 := by omega
    have hw2 : wrap32 (-(-x * 150 / 100)) = -(-x * 150 / 100) :=
      wrap32_id _ (by omega) (by omega)
    rw [hw2]
    have e2 : -(-x * 150 / 100) * 100 = -(-x * 150 / 100 * 100) := by ring
    rw [e2]
    have h3 : (0 : Int) ≤ -x * 150 / 100 * 100 := by positivity
    have hw3 : wrap32 (-(-x * 150 / 100 * 100)) = -(-x * 150 / 100 * 100) :=
      wrap32_id _ (by omega) (by omega)
    rw [hw3, Int.neg_tdiv, Int.tdiv_eq_ediv h3 (by norm_num)]
    have h4 : (0 : Int) ≤ -x * 150 / 100 * 100 / 150 := Int.ediv_nonneg h3 (by norm_num)
    have hub4 : -x * 150 / 100 * 100 / 150 ≤ 14316557 := by omega
    have hw4 : wrap32 (-(-x * 150 / 100 * 100 / 150)) = -(-x * 150 / 100 * 100 / 150) :=
      wrap32_id _ (by omega) (by omega)
    rw [hw4]
    omega

/-- C3 counterexample: at `Left = 2147483647` (a valid int32 coordinate)
the int32 multiplication `2147483647 * 150` wraps to `-150`, the dividend
truncates to `-1`, and the way back yields `0`: the round trip is off by
`2147483647`, not within 1 pixel, so the claim fails as universally
stated. -/
theorem resizeForDpi_roundtrip_counterexample :
    (resizeForDpi (resizeForDpi ⟨2147483647, 0, 0, 0⟩ 100 150) 150 100).Left = 0 ∧
    ¬(|(resizeForDpi (resizeForDpi ⟨2147483647, 0, 0, 0⟩ 100 150) 150 100).Left -
        (2147483647 : Int)| ≤ 1) :=
  ⟨rfl, by decide⟩

/-- C3 (amended): for every rectangle whose coordinates have absolute
value at most 14316557 — so the multiply-by-150 and the intermediate
multiply-by-100 stay within int32 — rescaling from DPI 100 to DPI 150 with
`resizeForDpi` and back again yields a rectangle each of whose four
coordinates differs from the original by at most one pixel; outside that
range the int32 product wraps and the bound fails. -/
theorem resizeForDpi_roundtrip_100_150_bounded (r : RECT)
    (hL : |r.Left| ≤ 14316557) (hT : |r.Top| ≤ 14316557)
    (hR : |r.Right| ≤ 14316557) (hB : |r.Bottom| ≤ 14316557) :
    |(resizeForDpi (resizeForDpi r 100 150) 150 100).Left - r.Left| ≤ 1 ∧
    |(resizeForDpi (resizeForDpi r 100 150) 150 100).Top - r.Top| ≤ 1 ∧
    |(resizeForDpi (resizeForDpi r 100 150) 150 100).Right - r.Right| ≤ 1 ∧
    |(resizeForDpi (resizeForDpi r 100 150) 150 100).Bottom - r.Bottom| ≤ 1 := by
  rw [abs_le] at hL hT hR hB
  have hL' := int32_dpi_roundtrip r.Left (by omega) (by omega)
  have hT' := int32_dpi_roundtrip r.Top (by omega) (by omega)
  have hR' := int32_dpi_roundtrip r.Right (by omega) (by omega)
  have hB' := int32_dpi_roundtrip r.Bottom (by omega) (by omega)
  simp only [resizeForDpi, abs_le]
  exact ⟨⟨by omega, by omega⟩, ⟨by omega, by omega⟩,
    ⟨by omega, by omega⟩, ⟨by omega, by omega⟩⟩

/-- C3 amended witness: the rectangle `⟨1, 0, 960, 1080⟩` is within the
bound and round-trips to within one pixel per coordinate (its Left
actually lands at 0, exercising the tolerance). -/
theorem resizeForDpi_roundtrip_bounded_witness :
    |(resizeForDpi (resizeForDpi ⟨1, 0, 960, 1080⟩ 100 150) 150 100).Left -
      (1 : Int)| ≤ 1 :=
  (resizeForDpi_roundtrip_100_150_bounded ⟨1, 0, 960, 1080⟩
    (by decide) (by decide) (by decide) (by decide)).1

/-- C9: when the DPI-normalized frame equals the current outer rectangle
(all four invisible-border extents are zero), the border correction leaves
the candidate target rectangle unchanged. -/
theorem borderCorrect_zero_extents (rect newPos : RECT) :
    borderCorrect rect rect newPos = newPos := by
  cases newPos
  simp [borderCorrect]

/-- C10: `sameRect a b` is true exactly when both pointers are non-nil and
the rectangles are field-wise equal; it is false whenever either pointer is
nil, without dereferencing it. -/
theorem sameRect_iff (a b : Option RECT) :
    (sameRect a b = true ↔ ∃ r, a = some r ∧ b = some r) ∧
    sameRect none b = false ∧ sameRect a none = false := by
  refine ⟨?_, ?_, ?_⟩
  · cases a with
    | none => simp [sameRect]
    | some ra =>
      cases b with
      | none => simp [sameRect]
      | some rb =>
        simp only [sameRect, decide_eq_true_eq]
        constructor
        · rintro rfl
          exact ⟨ra, rfl, rfl⟩
        · rintro ⟨r, hr, hr'⟩
          cases hr
          cases hr'
          rfl
  · simp [sameRect]
  · cases a <;> simp [sameRect]

/-- The body of the `EnumMonitors` callback in `moveToNextMonitor`: the
accumulator is `(monitorIndex, curMonitorIndex)`; a handle equal to the
hosting monitor overwrites `monitorIndex` with the running counter. -/
def monScanStep (mon : Nat) (acc : Nat × Nat) (d : Nat) : Nat × Nat :=
  (if d = mon then acc.2 else acc.1, acc.2 + 1)

/-- Value of `monitorIndex` after the `EnumMonitors` loop, starting from `(0, 0)`. -/
def scanMonitors (monitors : List Nat) (mon : Nat) : Nat :=
  (monitors.foldl (monScanStep mon) (0, 0)).1

/-- Go source: `mon = monitors[modNeg(monitorIndex-1, len(monitors))]`: the monitor
that `moveToNextMonitor` picks, given the enumerated handles and the
handle of the monitor hosting the window. -/
def selectAdjacentMonitor (monitors : List Nat) (mon : Nat) : Option Nat :=
  monitors.get?
    (Int.toNat (modNeg ((scanMonitors monitors mon : Int) - 1) (monitors.length : Int)))

theorem monScan_not_mem (mon : Nat) :
    ∀ (l : List Nat) (idx cur : Nat), mon ∉ l →
      (l.foldl (monScanStep mon) (idx, cur)).1 = idx := by
  intro l
  induction l with
  | nil => intro idx cur _; rfl
  | cons d ds ih =>
    intro idx cur h
    simp only [List.mem_cons, not_or] at h
    have hne : ¬(d = mon) := fun hh => h.1 hh.symm
    simp only [List.foldl_cons, monScanStep, if_neg hne]
    exact ih _ _ h.2

theorem monScan_found (mon : Nat) :
    ∀ (l : List Nat) (i : Nat) (h : i < l.length) (idx cur : Nat),
      l.Nodup → l.get ⟨i, h⟩ = mon →
      (l.foldl (monScanStep mon) (idx, cur)).1 = cur + i := by
  intro l
  induction l with
  | nil => intro i h; simp at h
  | cons d ds ih =>
    intro i h idx cur hnd hget
    rcases List.nodup_cons.mp hnd with ⟨hd, hds⟩
    cases i with
    | zero =>
      have hdm : d = mon := hget
      subst hdm
      have hnm : d ∉ ds := hd
      simp only [List.foldl_cons, monScanStep, eq_self_iff_true, if_true]
      rw [monScan_not_mem d ds cur (cur + 1) hnm]
      omega
    | succ j =>
      have hj : j < ds.length := by simpa using h
      have hget' : ds.get ⟨j, hj⟩ = mon := hget
      have hmem : mon ∈ ds := hget' ▸ List.get_mem ds _ _
      have hne : ¬(d = mon) := fun hh => hd (hh ▸ hmem)
      simp only [List.foldl_cons, monScanStep, if_neg hne]
      rw [ih j hj idx (cur + 1) hds hget']
      omega

theorem scanMonitors_get {monitors : List Nat} {i : Nat}
    (h : i < monitors.length) (hnd : monitors.Nodup) :
    scanMonitors monitors (monitors.get ⟨i, h⟩) = i := by
  unfold scanMonitors
  rw [monScan_found _ monitors i h 0 0 hnd rfl]
  omega

theorem scanMonitors_not_mem {monitors : List Nat} {mon : Nat}
    (h : mon ∉ monitors) : scanMonitors monitors mon = 0 :=
  monScan_not_mem mon monitors 0 0 h

theorem tmod_neg_num (a b : Int) : (-a).tmod b = -(a.tmod b) := by
  rw [Int.tmod_def, Int.tmod_def, Int.neg_tdiv]
  ring

theorem toNat_modNeg_sub_one (i N : Nat) (hi : i < N) :
    Int.toNat (modNeg ((i : Int) - 1) (N : Int)) = (i + N - 1) % N ∧
    (((i + N - 1) % N : Nat) : Int) = ((i : Int) - 1) % (N : Int) := by
  cases i with
  | zero =>
    by_cases hN1 : N = 1
    · subst hN1
      decide
    · have h2 : 2 ≤ N := by omega
      have key : modNeg ((0 : Nat) - 1 : Int) (N : Int) = (N : Int) - 1 := by
        unfold modNeg goMod
        have hm1 : (((0 : Nat) : Int) - 1) = -(1 : Int) := by norm_num
        have hin : Int.tmod 1 (N : Int) = 1 :=
          Int.tmod_eq_of_lt (by norm_num) (by omega)
        have hout : Int.tmod (-1 + (N : Int)) (N : Int) = -1 + N :=
          Int.tmod_eq_of_lt (by omega) (by omega)
        rw [hm1, tmod_neg_num, hin, hout]
        ring
      have hNat : (0 + N - 1) % N = N - 1 := by
        have e : 0 + N - 1 = N - 1 := by omega
        rw [e, Nat.mod_eq_of_lt (by omega)]
      constructor
      · rw [key, hNat]
        omega
      · rw [hNat]
        have hmod : ((0 : Nat) : Int) - 1 = ((N : Int) - 1) + (-1) * N := by
          push_cast
          ring
        rw [hmod, Int.add_mul_emod_self,
          Int.emod_eq_of_lt (by omega) (by omega)]
        omega
  | succ j =>
    have hj : (j : Int) < (N : Int) := by exact_mod_cast (by omega : j < N)
    have e1 : ((j + 1 : Nat) : Int) - 1 = (j : Int) := by push_cast; ring
    have key : modNeg (((j + 1 : Nat) : Int) - 1) (N : Int) = (j : Int) := by
      rw [e1]
      unfold modNeg goMod
      have hin : Int.tmod (j : Int) (N : Int) = (j : Int) :=
        Int.tmod_eq_of_lt (by omega) hj
      have hout : Int.tmod ((j : Int) + (N : Int)) (N : Int) = (j : Int) := by
        rw [Int.tmod_eq_emod (by omega) (by omega)]
        have e2 : (j : Int) + N = (j : Int) + 1 * N := by ring
        rw [e2, Int.add_mul_emod_self]
        exact Int.emod_eq_of_lt (by omega) hj
      rw [hin, hout]
    have hNat : (j + 1 + N - 1) % N = j := by
      have e : j + 1 + N - 1 = j + N := by omega
      rw [e, Nat.add_mod_right, Nat.mod_eq_of_lt (by omega)]
    constructor
    · rw [key, hNat]
      omega
    · rw [hNat, e1, Int.emod_eq_of_lt (by omega) hj]

/-- C2: for a non-empty duplicate-free monitor enumeration and a window
hosted on the monitor at index `i`, `moveToNextMonitor` selects the monitor
at index `(i - 1) mod N`, which is always in `[0, N)`. -/
theorem adjacentMonitor_prev (monitors : List Nat) (i : Nat)
    (hi : i < monitors.length) (hnd : monitors.Nodup) :
    selectAdjacentMonitor monitors (monitors.get ⟨i, hi⟩) =
      monitors.get? ((i + monitors.length - 1) % monitors.length) ∧
    (i + monitors.length - 1) % monitors.length < monitors.length ∧
    (((i + monitors.length - 1) % monitors.length : Nat) : Int) =
      ((i : Int) - 1) % (monitors.length : Int) := by
  have hN : 0 < monitors.length := by omega
  obtain ⟨h1, h2⟩ := toNat_modNeg_sub_one i monitors.length hi
  refine ⟨?_, Nat.mod_lt _ hN, h2⟩
  unfold selectAdjacentMonitor
  rw [scanMonitors_get hi hnd, h1]

/-- C2 witness: with monitors `[10, 20, 30]` (`M0, M1, M2`), a window on
`M0` is sent to `M2` and a window on `M2` is sent to `M1`. -/
theorem adjacentMonitor_prev_witness :
    selectAdjacentMonitor [10, 20, 30] 10 = some 30 ∧
    selectAdjacentMonitor [10, 20, 30] 30 = some 20 := by
  constructor
  · have h := (adjacentMonitor_prev [10, 20, 30] 0 (by decide) (by decide)).1
    exact h.trans (by decide)
  · have h := (adjacentMonitor_prev [10, 20, 30] 2 (by decide) (by decide)).1
    exact h.trans (by decide)

/-- C7 counterexample: with monitors `[10, 20, 30]` and a hosting handle
`99` that is not in the enumeration, `moveToNextMonitor` does not fail:
it silently selects the last monitor `30`. -/
theorem adjacentMonitor_stale_counterexample :
    selectAdjacentMonitor [10, 20, 30] 99 = some 30 ∧
    99 ∉ ([10, 20, 30] : List Nat) := by
  decide

/-- C7 amended: when the hosting monitor is not found in a non-empty
enumeration, the loop leaves `monitorIndex` at `0` and the operation
silently selects the monitor at index `N - 1` (the last one); no
stale-handle error exists in the code. -/
theorem adjacentMonitor_stale (monitors : List Nat) (mon : Nat)
    (hne : monitors ≠ []) (hnm : mon ∉ monitors) :
    selectAdjacentMonitor monitors mon = monitors.get? (monitors.length - 1) := by
  have hN : 0 < monitors.length := List.length_pos.mpr hne
  unfold selectAdjacentMonitor
  rw [scanMonitors_not_mem hnm]
  obtain ⟨h1, _⟩ := toNat_modNeg_sub_one 0 monitors.length hN
  rw [h1]
  have e : (0 + monitors.length - 1) % monitors.length = monitors.length - 1 := by
    have e' : 0 + monitors.length - 1 = monitors.length - 1 := by omega
    rw [e', Nat.mod_eq_of_lt (by omega)]
  rw [e]

/-- C7 amended witness: the stale handle `99` against `[10, 20, 30]`
resolves to the last monitor. -/
theorem adjacentMonitor_stale_witness :
    selectAdjacentMonitor [10, 20, 30] 99 = some 30 := by
  have h := adjacentMonitor_stale [10, 20, 30] 99 (by decide) (by decide)
  exact h.trans (by decide)

/-- A layout variant: `type resizeFunc func(disp, cur w32.RECT) w32.RECT`. -/
abbrev resizeFunc := RECT → RECT → RECT

/-- The Win32 calls made by `resize` and the hotkey callbacks, as oracles
keyed by the window handle; the Bool-valued fields model the calls whose
failure `resize` turns into an error. `RcWork` is the work area of the
monitor hosting the window, `displayDPI` the `GetDeviceCaps LOGPIXELSY`
value of its device context. -/
structure Platform where
  GetForegroundWindow : Nat
  isZonableWindow : Nat → Bool
  GetWindowRect : Nat → RECT
  displayDPI : Nat → Int
  ReleaseDC : Nat → Bool
  GetMonitorInfo : Nat → Bool
  RcWork : Nat → RECT
  DwmGetFrame : Nat → Option RECT
  GetDpiForWindow : Nat → Int
  ShowWindow : Nat → Bool
  SetWindowPos : Nat → Bool

/-- The error returns of `resize`, one per failing platform call. -/
inductive ResizeErr
  | releaseDC
  | getMonitorInfo
  | dwmFrame
  | showWindow
  | setWindowPos
deriving DecidableEq, Repr

/-- Go source: `func resize(hwnd w32.HWND, f resizeFunc) (bool, error)`. The mutable
global `lastResized` is threaded explicitly: the result pairs the Go
return value with the value of `lastResized` after the call. The source
assigns `lastResized = hwnd` only after the zonable check and the
`ReleaseDC` / `GetMonitorInfo` / DWM-frame queries have all succeeded,
just before the `sameRect` no-op check. -/
def resize (p : Platform) (lastResized hwnd : Nat) (f : resizeFunc) :
    (Bool × Option ResizeErr) × Nat :=
  if !(p.isZonableWindow hwnd) then ((false, none), lastResized)
  else
    let rect := p.GetWindowRect hwnd
    if !(p.ReleaseDC hwnd) then ((false, some .releaseDC), lastResized)
    else if !(p.GetMonitorInfo hwnd) then ((false, some .getMonitorInfo), lastResized)
    else
      match p.DwmGetFrame hwnd with
      | none => ((false, some .dwmFrame), lastResized)
      | some frame =>
        let resizedFrame := resizeForDpi frame (p.GetDpiForWindow hwnd) (p.displayDPI hwnd)
        let newPos := borderCorrect rect resizedFrame (f (p.RcWork hwnd) resizedFrame)
        if sameRect (some rect) (some newPos) then ((false, none), hwnd)
        else if !(p.ShowWindow hwnd) then ((false, some .showWindow), hwnd)
        else if !(p.SetWindowPos hwnd) then ((false, some .setWindowPos), hwnd)
        else ((true, none), hwnd)

/-- Modelled from the spec: the layout variants referenced by `edgeFuncs`
live in a source file of the repository that is not available; §4.4
specifies each as a fraction (1/2, 2/3, 1/3) of the work area along one
axis, full extent along the other, flush to its edge, floor-rounded. -/
def leftHalf : resizeFunc := fun disp _ =>
  ⟨disp.Left, disp.Top, disp.Left + goDiv disp.Width 2, disp.Bottom⟩

/-- Modelled from the spec: left two-thirds of the work area. -/
def leftTwoThirds : resizeFunc := fun disp _ =>
  ⟨disp.Left, disp.Top, disp.Left + goDiv (disp.Width * 2) 3, disp.Bottom⟩

/-- Modelled from the spec: left one-third of the work area. -/
def leftOneThirds : resizeFunc := fun disp _ =>
  ⟨disp.Left, disp.Top, disp.Left + goDiv disp.Width 3, disp.Bottom⟩

/-- Modelled from the spec: right half of the work area. -/
def rightHalf : resizeFunc := fun disp _ =>
  ⟨disp.Right - goDiv disp.Width 2, disp.Top, disp.Right, disp.Bottom⟩

/-- Modelled from the spec: right two-thirds of the work area. -/
def rightTwoThirds : resizeFunc := fun disp _ =>
  ⟨disp.Right - goDiv (disp.Width * 2) 3, disp.Top, disp.Right, disp.Bottom⟩

/-- Modelled from the spec: right one-third of the work area. -/
def rightOneThirds : resizeFunc := fun disp _ =>
  ⟨disp.Right - goDiv disp.Width 3, disp.Top, disp.Right, disp.Bottom⟩

/-- Modelled from the spec: top half of the work area. -/
def topHalf : resizeFunc := fun disp _ =>
  ⟨disp.Left, disp.Top, disp.Right, disp.Top + goDiv disp.Height 2⟩

/-- Modelled from the spec: top two-thirds of the work area. -/
def topTwoThirds : resizeFunc := fun disp _ =>
  ⟨disp.Left, disp.Top, disp.Right, disp.Top + goDiv (disp.Height * 2) 3⟩

/-- Modelled from the spec: top one-third of the work area. -/
def topOneThirds : resizeFunc := fun disp _ =>
  ⟨disp.Left, disp.Top, disp.Right, disp.Top + goDiv disp.Height 3⟩

/-- Modelled from the spec: bottom half of the work area. -/
def bottomHalf : resizeFunc := fun disp _ =>
  ⟨disp.Left, disp.Bottom - goDiv disp.Height 2, disp.Right, disp.Bottom⟩

/-- Modelled from the spec: bottom two-thirds of the work area. -/
def bottomTwoThirds : resizeFunc := fun disp _ =>
  ⟨disp.Left, disp.Bottom - goDiv (disp.Height * 2) 3, disp.Right, disp.Bottom⟩

/-- Modelled from the spec: bottom one-third of the work area. -/
def bottomOneThirds : resizeFunc := fun disp _ =>
  ⟨disp.Left, disp.Bottom - goDiv disp.Height 3, disp.Right, disp.Bottom⟩

/-- Modelled from the spec: center one-third of the work area. -/
def middleThirds : resizeFunc := fun disp _ =>
  ⟨disp.Left + goDiv disp.Width 3, disp.Top,
   disp.Left + goDiv (disp.Width * 2) 3, disp.Bottom⟩

/-- The `edgeFuncs` variant table built in `main`. -/
def edgeFuncs : List (List resizeFunc) :=
  [[leftHalf, leftTwoThirds, leftOneThirds],
   [rightHalf, rightTwoThirds, rightOneThirds],
   [topHalf, topTwoThirds, topOneThirds],
   [bottomHalf, bottomTwoThirds, bottomOneThirds],
   [leftOneThirds, middleThirds, rightOneThirds]]

/-- The mutable state the hotkey callbacks touch: the `lastResized` global
and the `edgeFuncTurn` slice. -/
structure CycleSt where
  lastResized : Nat
  edgeFuncTurn : List Nat
deriving DecidableEq, Repr

/-- Placeholder for an out-of-range index into the variant table; the
theorems only ever use in-range indices, matching `main`. -/
def resizeFuncDefault : resizeFunc := fun _ cur => cur

/-- Go source: `if lastResized != hwnd \x7b *turns = make([]int, len(edgeFuncs)) \x7d`:
the slice of turn counters the invocation actually works on. -/
def selectTurns (funcs : List (List resizeFunc)) (st : CycleSt) (hwnd : Nat) :
    List Nat :=
  if st.lastResized ≠ hwnd then List.replicate funcs.length 0 else st.edgeFuncTurn

/-- Go source: `funcs[i][(*turns)[i]%len(funcs[i])]`. -/
def selectedFunc (funcs : List (List resizeFunc)) (turns : List Nat) (i : Nat) :
    resizeFunc :=
  (funcs.getD i []).getD (turns.getD i 0 % (funcs.getD i []).length) resizeFuncDefault

/-- Go source: `(*turns)[i]++` followed by `for j != i \x7b (*turns)[j] = 0 \x7d`. -/
def bumpTurn (turns : List Nat) (i : Nat) : List Nat :=
  let t1 := turns.set i (turns.getD i 0 + 1)
  (List.range t1.length).map (fun j => if j = i then t1.getD j 0 else 0)

/-- The `cycleFuncs` closure in `main`. An `Except.error` result models the
`panic("foreground window is NULL")`; an `Except.ok` result carries the
state after the invocation returned. Note that only a non-nil `err` from
`resize` short-circuits before the increment: the discarded Bool means a
no-op still reaches `(*turns)[i]++`. -/
def cycleFuncs (p : Platform) (funcs : List (List resizeFunc)) (i : Nat)
    (st : CycleSt) : Except String CycleSt :=
  if p.GetForegroundWindow = 0 then Except.error "foreground window is NULL"
  else
    match resize p st.lastResized p.GetForegroundWindow
        (selectedFunc funcs (selectTurns funcs st p.GetForegroundWindow) i) with
    | ((_, some _), last') =>
        Except.ok { lastResized := last',
                    edgeFuncTurn := selectTurns funcs st p.GetForegroundWindow }
    | ((_, none), last') =>
        Except.ok { lastResized := last',
                    edgeFuncTurn := bumpTurn (selectTurns funcs st p.GetForegroundWindow) i }

/-- Startup state: `lastResized` is the zero handle and
`edgeFuncTurn := make([]int, len(edgeFuncs))`. -/
def initCycleSt (funcs : List (List resizeFunc)) : CycleSt :=
  { lastResized := 0, edgeFuncTurn := List.replicate funcs.length 0 }

/-- One dispatched hotkey: a panic would end the process, so the state is
simply carried over in that case (no further mutation happens). -/
def cycleStep (funcs : List (List resizeFunc)) (s : CycleSt)
    (q : Platform × Nat) : CycleSt :=
  match cycleFuncs q.1 funcs q.2 s with
  | Except.ok s' => s'
  | Except.error _ => s

/-- A sequence of hotkey invocations, each with its own platform snapshot
(the foreground window and the query outcomes may change between events). -/
def runCycle (funcs : List (List resizeFunc)) (steps : List (Platform × Nat))
    (st : CycleSt) : CycleSt :=
  steps.foldl (cycleStep funcs) st

def atMostOneNonzero (l : List Nat) : Prop :=
  ∀ j k, l.getD j 0 ≠ 0 → l.getD k 0 ≠ 0 → j = k

theorem getD_replicate_zero : ∀ (n j : Nat), (List.replicate n (0 : Nat)).getD j 0 = 0 := by
  intro n
  induction n with
  | zero => intro j; cases j <;> rfl
  | succ n ih =>
    intro j
    cases j with
    | zero => rfl
    | succ j => exact ih j

theorem getD_range_map (n : Nat) (f : Nat → Nat) (j : Nat) :
    ((List.range n).map f).getD j 0 = if j < n then f j else 0 := by
  rw [List.getD_eq_getElem?_getD, List.getElem?_map]
  by_cases h : j < n
  · rw [List.getElem?_range h]
    simp [h]
  · rw [List.getElem?_eq_none (by simpa using Nat.le_of_not_lt h)]
    simp [h]

theorem getD_bumpTurn_ne (turns : List Nat) (i j : Nat) (hne : j ≠ i) :
    (bumpTurn turns i).getD j 0 = 0 := by
  unfold bumpTurn
  rw [getD_range_map]
  simp [hne]

theorem getD_bumpTurn_eq (turns : List Nat) (i : Nat) (hi : i < turns.length) :
    (bumpTurn turns i).getD i 0 = turns.getD i 0 + 1 := by
  unfold bumpTurn
  rw [getD_range_map]
  simp only [List.length_set, eq_self_iff_true, if_true]
  rw [if_pos hi]
  rw [List.getD_eq_getElem?_getD, List.getElem?_set_self hi]
  rfl

theorem cycleFuncs_ok_inv {p : Platform} {funcs : List (List resizeFunc)}
    {i : Nat} {st st' : CycleSt} (h : cycleFuncs p funcs i st = Except.ok st')
    (hst : atMostOneNonzero st.edgeFuncTurn) :
    atMostOneNonzero st'.edgeFuncTurn := by
  unfold cycleFuncs at h
  by_cases h0 : p.GetForegroundWindow = 0
  · rw [if_pos h0] at h
    exact absurd h (by simp)
  · rw [if_neg h0] at h
    have hturns : atMostOneNonzero (selectTurns funcs st p.GetForegroundWindow) := by
      unfold selectTurns
      split
      · intro j k hj _
        rw [getD_replicate_zero] at hj
        exact absurd rfl hj
      · exact hst
    rcases he : resize p st.lastResized p.GetForegroundWindow
        (selectedFunc funcs (selectTurns funcs st p.GetForegroundWindow) i)
      with ⟨⟨moved, err⟩, last'⟩
    rw [he] at h
    cases err with
    | some e =>
      have hx := Except.ok.inj h
      subst hx
      exact hturns
    | none =>
      have hx := Except.ok.inj h
      subst hx
      intro j k hj hk
      by_cases hji : j = i
      · by_cases hki : k = i
        · rw [hji, hki]
        · rw [getD_bumpTurn_ne _ _ _ hki] at hk
          exact absurd rfl hk
      · rw [getD_bumpTurn_ne _ _ _ hji] at hj
        exact absurd rfl hj

theorem cycleStep_inv (funcs : List (List resizeFunc)) (s : CycleSt)
    (q : Platform × Nat) (h : atMostOneNonzero s.edgeFuncTurn) :
    atMostOneNonzero (cycleStep funcs s q).edgeFuncTurn := by
  unfold cycleStep
  rcases hc : cycleFuncs q.1 funcs q.2 s with e | s'
  · exact h
  · exact cycleFuncs_ok_inv hc h

theorem runCycle_inv (funcs : List (List resizeFunc))
    (steps : List (Platform × Nat)) :
    ∀ st : CycleSt, atMostOneNonzero st.edgeFuncTurn →
      atMostOneNonzero (runCycle funcs steps st).edgeFuncTurn := by
  induction steps with
  | nil => intro st h; exact h
  | cons q qs ih =>
    intro st h
    unfold runCycle
    rw [List.foldl_cons]
    exact ih (cycleStep funcs st q) (cycleStep_inv funcs st q h)

theorem resize_last_eq (p : Platform) (lastResized hwnd : Nat) (f : resizeFunc) :
    (resize p lastResized hwnd f).2 =
      if p.isZonableWindow hwnd && p.ReleaseDC hwnd && p.GetMonitorInfo hwnd
          && (p.DwmGetFrame hwnd).isSome then hwnd else lastResized := by
  unfold resize
  cases hz : p.isZonableWindow hwnd with
  | false => simp [hz]
  | true =>
    cases hr : p.ReleaseDC hwnd with
    | false => simp [hz, hr]
    | true =>
      cases hm : p.GetMonitorInfo hwnd with
      | false => simp [hz, hr, hm]
      | true =>
        cases hd : p.DwmGetFrame hwnd with
        | none => simp [hz, hr, hm, hd]
        | some fr =>
          simp only [hz, hr, hm, hd, Bool.not_true, Bool.false_eq_true,
            if_false, Option.isSome_some, Bool.and_self, Bool.and_true, if_true]
          split
          · rfl
          · split
            · rfl
            · split <;> rfl

/-- C6 (amended): `resize` records the window as `lastResized` exactly when
the zonable check and the `ReleaseDC` / `GetMonitorInfo` / DWM-frame
queries all succeed — so it is recorded for a `sameRect` no-op and for any
later move outcome, but NOT when the window is not placeable or one of
those queries fails. -/
theorem resize_lastResized_spec (p : Platform) (lastResized hwnd : Nat)
    (f : resizeFunc) :
    (resize p lastResized hwnd f).2 =
      if p.isZonableWindow hwnd && p.ReleaseDC hwnd && p.GetMonitorInfo hwnd
          && (p.DwmGetFrame hwnd).isSome then hwnd else lastResized :=
  resize_last_eq p lastResized hwnd f

/-- Platform snapshot with a non-placeable foreground window 7. -/
def Pnz : Platform :=
  { GetForegroundWindow := 7
    isZonableWindow := fun _ => false
    GetWindowRect := fun _ => ⟨0, 0, 0, 0⟩
    displayDPI := fun _ => 96
    ReleaseDC := fun _ => true
    GetMonitorInfo := fun _ => true
    RcWork := fun _ => ⟨0, 0, 0, 0⟩
    DwmGetFrame := fun _ => none
    GetDpiForWindow := fun _ => 96
    ShowWindow := fun _ => true
    SetWindowPos := fun _ => true }

/-- C6 counterexample: a placement against the non-placeable window 7
returns a no-op without error but leaves `lastResized` at its old value 3;
it does not record 7 as the claim requires. -/
theorem resize_lastResized_counterexample :
    resize Pnz 3 7 leftHalf = ((false, none), 3) ∧ (3 : Nat) ≠ 7 :=
  ⟨rfl, by decide⟩

/-- C4: every cycle state reachable from the startup state has at most one
EdgeAction with a non-zero turn index; moreover any invocation of action B
whose `resize` call returns a nil error zeroes the turn index of every
other action A — in particular a successful B after A advanced to 1 resets
A's index to 0. -/
theorem cycle_at_most_one_nonzero (funcs : List (List resizeFunc))
    (steps : List (Platform × Nat)) :
    atMostOneNonzero (runCycle funcs steps (initCycleSt funcs)).edgeFuncTurn ∧
    (∀ (p : Platform) (B : Nat) (st st' : CycleSt),
      cycleFuncs p funcs B st = Except.ok st' →
      (resize p st.lastResized p.GetForegroundWindow
        (selectedFunc funcs (selectTurns funcs st p.GetForegroundWindow) B)).1.2 = none →
      ∀ A, A ≠ B → st'.edgeFuncTurn.getD A 0 = 0) := by
  constructor
  · apply runCycle_inv
    intro j k hj _
    simp only [initCycleSt] at hj
    rw [getD_replicate_zero] at hj
    exact absurd rfl hj
  · intro p B st st' h hres A hAB
    unfold cycleFuncs at h
    by_cases h0 : p.GetForegroundWindow = 0
    · rw [if_pos h0] at h
      exact absurd h (by simp)
    · rw [if_neg h0] at h
      rcases he : resize p st.lastResized p.GetForegroundWindow
          (selectedFunc funcs (selectTurns funcs st p.GetForegroundWindow) B)
        with ⟨⟨moved, err⟩, last'⟩
      rw [he] at h hres
      simp only at hres
      subst hres
      have hx := Except.ok.inj h
      subst hx
      exact getD_bumpTurn_ne _ _ _ hAB

/-- Platform snapshot where window 7 is placeable, every query succeeds and
the right-half target differs from the current rectangle, so the placement
actually moves the window. -/
def Pmove : Platform :=
  { GetForegroundWindow := 7
    isZonableWindow := fun _ => true
    GetWindowRect := fun _ => ⟨0, 0, 100, 100⟩
    displayDPI := fun _ => 96
    ReleaseDC := fun _ => true
    GetMonitorInfo := fun _ => true
    RcWork := fun _ => ⟨0, 0, 1920, 1080⟩
    DwmGetFrame := fun _ => some ⟨0, 0, 100, 100⟩
    GetDpiForWindow := fun _ => 96
    ShowWindow := fun _ => true
    SetWindowPos := fun _ => true }

/-- C4 witness: action 1 fired successfully against the same window 7 after
action 0 had advanced to 1; action 0's index is reset to 0. -/
theorem cycle_at_most_one_nonzero_witness :
    (⟨7, [0, 1, 0, 0, 0]⟩ : CycleSt).edgeFuncTurn.getD 0 0 = 0 :=
  (cycle_at_most_one_nonzero edgeFuncs []).2 Pmove 1
    ⟨7, [1, 0, 0, 0, 0]⟩ ⟨7, [0, 1, 0, 0, 0]⟩ rfl rfl 0 (by decide)

/-- C1 (amended): with a non-NULL foreground window an edge-cycle
invocation always returns, and the fired action's turn index is incremented
exactly when `resize` returned a nil error — which includes the
not-placeable and rectangle-already-in-place no-ops, since the Bool result
is discarded; the turn slice is left as the (possibly reset) selection only
when `resize` returned a non-nil error. -/
theorem cycle_turn_increment (p : Platform) (funcs : List (List resizeFunc))
    (i : Nat) (st : CycleSt) (h0 : p.GetForegroundWindow ≠ 0)
    (hi : i < (selectTurns funcs st p.GetForegroundWindow).length) :
    ∃ st', cycleFuncs p funcs i st = Except.ok st' ∧
      ((resize p st.lastResized p.GetForegroundWindow
          (selectedFunc funcs (selectTurns funcs st p.GetForegroundWindow) i)).1.2 = none →
        st'.edgeFuncTurn.getD i 0 =
          (selectTurns funcs st p.GetForegroundWindow).getD i 0 + 1) ∧
      (∀ e, (resize p st.lastResized p.GetForegroundWindow
          (selectedFunc funcs (selectTurns funcs st p.GetForegroundWindow) i)).1.2 = some e →
        st'.edgeFuncTurn = selectTurns funcs st p.GetForegroundWindow) := by
  unfold cycleFuncs
  rw [if_neg h0]
  rcases he : resize p st.lastResized p.GetForegroundWindow
      (selectedFunc funcs (selectTurns funcs st p.GetForegroundWindow) i)
    with ⟨⟨moved, err⟩, last'⟩
  cases err with
  | none =>
    refine ⟨_, rfl, fun _ => ?_, fun e hee => ?_⟩
    · exact getD_bumpTurn_eq _ _ hi
    · exact absurd hee (by simp)
  | some e0 =>
    refine ⟨_, rfl, fun hn => ?_, fun e hee => rfl⟩
    exact absurd hn (by simp)

/-- Platform snapshot where window 7 is placeable, all queries succeed, and
the left-half target of the 1920x1080 work area equals the window's current
outer rectangle, so the placement is a genuine `sameRect` no-op. -/
def Pnoop : Platform :=
  { GetForegroundWindow := 7
    isZonableWindow := fun _ => true
    GetWindowRect := fun _ => ⟨0, 0, 960, 1080⟩
    displayDPI := fun _ => 96
    ReleaseDC := fun _ => true
    GetMonitorInfo := fun _ => true
    RcWork := fun _ => ⟨0, 0, 1920, 1080⟩
    DwmGetFrame := fun _ => some ⟨0, 0, 960, 1080⟩
    GetDpiForWindow := fun _ => 96
    ShowWindow := fun _ => true
    SetWindowPos := fun _ => true }

/-- C1 counterexample: against `Pnoop` the border-corrected left-half
target equals the current outer rectangle, so `resize` declines with
`(false, nil)` — yet the invocation increments the fired action's turn
index from 0 to 1, because only a non-nil error short-circuits before
`(*turns)[i]++`; the no-op press does skip a variant. -/
theorem cycle_noop_counterexample :
    cycleFuncs Pnoop edgeFuncs 0 (initCycleSt edgeFuncs) =
      Except.ok ⟨7, [1, 0, 0, 0, 0]⟩ ∧
    resize Pnoop 0 7 leftHalf = ((false, none), 7) :=
  ⟨rfl, rfl⟩

/-- C1 amended witness: the no-op invocation against `Pnoop` returns
normally. -/
theorem cycle_turn_increment_witness :
    0 < (selectTurns edgeFuncs (initCycleSt edgeFuncs) 7).length ∧
    ∃ st', cycleFuncs Pnoop edgeFuncs 0 (initCycleSt edgeFuncs) = Except.ok st' :=
  ⟨by decide, by
    obtain ⟨st', h1, _, _⟩ :=
      cycle_turn_increment Pnoop edgeFuncs 0 (initCycleSt edgeFuncs)
        (by decide) (by decide)
    exact ⟨st', h1⟩⟩

/-- C5 (amended): when the foreground window differs from `lastResized`,
the invocation behaves exactly as if every turn index were already zero
(prior progress is discarded and variant 0 of the fired action is what the
selection yields), and the invocation returns; but `lastResized` is updated
to the new window only when the placement gets past its platform queries —
when the window is not placeable it keeps its old value. -/
theorem cycle_cross_window (p : Platform) (funcs : List (List resizeFunc))
    (i : Nat) (st : CycleSt) (h0 : p.GetForegroundWindow ≠ 0)
    (hdiff : st.lastResized ≠ p.GetForegroundWindow) :
    cycleFuncs p funcs i st =
      cycleFuncs p funcs i ⟨st.lastResized, List.replicate funcs.length 0⟩ ∧
    ∃ st', cycleFuncs p funcs i st = Except.ok st' ∧
      (p.isZonableWindow p.GetForegroundWindow = false →
        st'.lastResized = st.lastResized) ∧
      (p.isZonableWindow p.GetForegroundWindow = true →
        p.ReleaseDC p.GetForegroundWindow = true →
        p.GetMonitorInfo p.GetForegroundWindow = true →
        (p.DwmGetFrame p.GetForegroundWindow).isSome = true →
        st'.lastResized = p.GetForegroundWindow) := by
  have e1 : selectTurns funcs st p.GetForegroundWindow =
      List.replicate funcs.length 0 := by
    unfold selectTurns
    rw [if_pos hdiff]
  have e2 : selectTurns funcs ⟨st.lastResized, List.replicate funcs.length 0⟩
      p.GetForegroundWindow = List.replicate funcs.length 0 := by
    unfold selectTurns
    split
    · rfl
    · next hcon => exact absurd hdiff hcon
  constructor
  · simp only [cycleFuncs, e1, e2]
  · unfold cycleFuncs
    rw [if_neg h0]
    have hlast := resize_last_eq p st.lastResized p.GetForegroundWindow
      (selectedFunc funcs (selectTurns funcs st p.GetForegroundWindow) i)
    rcases he : resize p st.lastResized p.GetForegroundWindow
        (selectedFunc funcs (selectTurns funcs st p.GetForegroundWindow) i)
      with ⟨⟨moved, err⟩, last'⟩
    rw [he] at hlast
    simp only at hlast
    cases err with
    | some e0 =>
      refine ⟨_, rfl, fun hz => ?_, fun hz hr hm hd => ?_⟩
      · rw [hlast, if_neg (by simp [hz])]
      · rw [hlast, if_pos (by simp [hz, hr, hm, hd])]
    | none =>
      refine ⟨_, rfl, fun hz => ?_, fun hz hr hm hd => ?_⟩
      · rw [hlast, if_neg (by simp [hz])]
      · rw [hlast, if_pos (by simp [hz, hr, hm, hd])]

/-- C5 counterexample: window 7 (≠ `lastResized` = 3) is not placeable: the
turn indices are reset (and then bumped for the fired action), but
`lastResized` stays 3 — it is not updated to the new window 7 as the claim
requires. -/
theorem cycle_cross_window_counterexample :
    cycleFuncs Pnz edgeFuncs 0 ⟨3, [2, 0, 0, 0, 0]⟩ =
      Except.ok ⟨3, [1, 0, 0, 0, 0]⟩ ∧
    Pnz.GetForegroundWindow = 7 ∧ (3 : Nat) ≠ 7 :=
  ⟨rfl, rfl, by decide⟩

/-- C5 amended witness: the cross-window invocation behaves as if all turn
indices were already zero. -/
theorem cycle_cross_window_witness :
    cycleFuncs Pnz edgeFuncs 0 ⟨3, [2, 0, 0, 0, 0]⟩ =
      cycleFuncs Pnz edgeFuncs 0 ⟨3, List.replicate edgeFuncs.length 0⟩ :=
  (cycle_cross_window Pnz edgeFuncs 0 ⟨3, [2, 0, 0, 0, 0]⟩ (by decide) (by decide)).1

/-- C8 (amended): an edge-cycle entry point returns normally whenever the
foreground window is non-NULL (placement failures are logged and absorbed),
but with a NULL foreground window it panics instead of logging and
returning. -/
theorem hotkey_outcomes (p : Platform) (funcs : List (List resizeFunc))
    (i : Nat) (st : CycleSt) (_hi : i < funcs.length) :
    (p.GetForegroundWindow = 0 →
      cycleFuncs p funcs i st = Except.error "foreground window is NULL") ∧
    (p.GetForegroundWindow ≠ 0 →
      ∃ st', cycleFuncs p funcs i st = Except.ok st') := by
  constructor
  · intro h0
    unfold cycleFuncs
    rw [if_pos h0]
  · intro h0
    unfold cycleFuncs
    rw [if_neg h0]
    rcases he : resize p st.lastResized p.GetForegroundWindow
        (selectedFunc funcs (selectTurns funcs st p.GetForegroundWindow) i)
      with ⟨⟨moved, err⟩, last'⟩
    cases err with
    | some e0 => exact ⟨_, rfl⟩
    | none => exact ⟨_, rfl⟩

/-- Platform snapshot whose foreground window is NULL. -/
def Pnull : Platform := { Pnz with GetForegroundWindow := 0 }

/-- C8 counterexample: with a NULL foreground window the edge-cycle entry
point does not log-and-return — it panics (modelled as the `Except.error`
outcome), so no post-invocation state exists. -/
theorem hotkey_null_counterexample :
    cycleFuncs Pnull edgeFuncs 0 (initCycleSt edgeFuncs) =
      Except.error "foreground window is NULL" ∧
    ¬∃ st', cycleFuncs Pnull edgeFuncs 0 (initCycleSt edgeFuncs) = Except.ok st' :=
  ⟨rfl, fun ⟨_, h⟩ => Except.noConfusion h⟩

/-- C8 amended witness: the NULL-window panic branch at a concrete input. -/
theorem hotkey_outcomes_witness :
    cycleFuncs Pnull edgeFuncs 0 (initCycleSt edgeFuncs) =
      Except.error "foreground window is NULL" :=
  (hotkey_outcomes Pnull edgeFuncs 0 (initCycleSt edgeFuncs) (by decide)).1 rfl

end RectangleWin
